import Mathlib

/-!
Verification of `split.py` (`split_image`) from GlobalDrones/large-orthomosaic-tiling.

Shallow embedding conventions:
* Real-valued quantities of the script (tile size in meters, the affine
  transform scale terms, the per-axis resolutions) are modeled as rationals
  `ℚ`; `math.ceil` is `Int.ceil`.
* Python integers are `ℤ` (Python `//` is floor division, `Int.fdiv`);
  raster width/height/band count are `ℕ` as rasterio reports them
  non-negative.
* The filesystem is an explicit record `FS` (does the input file exist, does
  the save directory exist, which files have been written); `os.path.isfile`,
  `os.makedirs` and `cv2.imwrite` act on it.
* A windowed read `src.read(window=...)` returns a band-major array of shape
  (band, height, width); it is modeled as a `List (List ℤ)`: one entry per
  band, each band its samples in row-major order.  `np.transpose(tile_data,
  (1, 2, 0))` only changes the memory layout from band-major to
  pixel-interleaved and is the identity on this per-band representation,
  while the fancy index `out_img[:, :, [2, 1, 0, 3]]` permutes the list of
  bands.  `np.all(alpha == 0)` / `not np.any(out_img)` are the corresponding
  all-zero tests on the lists (both are `True` on empty data, as in numpy).
* The two fatal errors (`FileNotFoundError`, the `ValueError` for a zero
  resolution, called `NotFoundError` / `InvalidResolutionError` in the spec)
  are an `Except` result.
-/

/-- A pixel-space window (x, y, width, height), as `rasterio.windows.Window`
is used on line 62 of `split.py`. -/
structure Window where
  x : ℤ
  y : ℤ
  width : ℤ
  height : ℤ
deriving DecidableEq, Repr

/-- The raster source opened on line 22 of `split.py`: dimensions, band
count, the two scale terms `transform[0]` / `transform[4]` of the affine
transform, and the windowed-read function returning band-major data. -/
structure Raster where
  width : ℕ
  height : ℕ
  count : ℕ
  a : ℚ
  e : ℚ
  read : Window → List (List ℤ)

/-- Filesystem state touched by `split_image`: existence of the input file,
existence of the save directory, and the list of written tile files. -/
structure FS where
  inputExists : Bool
  saveDirExists : Bool
  files : List String
deriving DecidableEq, Repr

/-- The two fatal errors of `split_image` (spec names: `NotFoundError`,
`InvalidResolutionError`). -/
inductive SplitError where
  | notFound
  | invalidResolution
deriving DecidableEq, Repr

/-- Line 37 of `split.py`: `tile_width_pixels = math.ceil(tile_width_meters /
pixel_width_meters)`. -/
def tile_width_pixels (tile_width_meters pixel_width_meters : ℚ) : ℤ :=
  ⌈tile_width_meters / pixel_width_meters⌉

/-- Line 49 of `split.py`: `w_tiles = (img_width + tile_width_pixels - 1) //
tile_width_pixels` (Python `//` is floor division). -/
def w_tiles (img_width : ℕ) (tpx : ℤ) : ℤ :=
  ((img_width : ℤ) + tpx - 1).fdiv tpx

/-- Line 50 of `split.py`: same ceiling-style division for the vertical
axis. -/
def h_tiles (img_height : ℕ) (tpx : ℤ) : ℤ :=
  ((img_height : ℤ) + tpx - 1).fdiv tpx

/-- Lines 57-62 of `split.py`: the window of grid cell (row `i`, column `j`),
clipped to the image bounds. -/
def tileWindow (tpx : ℤ) (img_width img_height : ℕ) (i j : ℕ) : Window :=
  { x := (j : ℤ) * tpx
    y := (i : ℤ) * tpx
    width := min tpx ((img_width : ℤ) - (j : ℤ) * tpx)
    height := min tpx ((img_height : ℤ) - (i : ℤ) * tpx) }

/-- Lines 66-113 of `split.py`: the body of the loop for one tile, given the
band count, the band-major tile data and the current `tile_number`.  Returns
the updated `tile_number` and the image written (`none` when the tile is
skipped).  Every branch of the source increments `tile_number` exactly once.
For 4 bands the channel list is permuted by `[2, 1, 0, 3]` and the tile is
skipped when the alpha channel (channel 3 of `out_img`) is all zero; for 3
bands the data is written unchanged unless every sample is zero; any other
band count is skipped. -/
def tileStep (count_bands : ℕ) (tile_data : List (List ℤ)) (tile_number : ℕ) :
    ℕ × Option (List (List ℤ)) :=
  if count_bands = 4 then
    let out_img := [tile_data.getD 2 [], tile_data.getD 1 [],
                    tile_data.getD 0 [], tile_data.getD 3 []]
    let alpha_channel := out_img.getD 3 []
    if alpha_channel.all (fun v => v = 0) then
      (tile_number + 1, none)
    else
      (tile_number + 1, some out_img)
  else if count_bands = 3 then
    let out_img := tile_data
    if out_img.all (fun band => band.all (fun v => v = 0)) then
      (tile_number + 1, none)
    else
      (tile_number + 1, some out_img)
  else
    (tile_number + 1, none)

/-- One record per loop iteration: the tile index assigned to the cell, its
window, and the image written for it (`none` when skipped). -/
structure TileEvent where
  index : ℕ
  window : Window
  written : Option (List (List ℤ))
deriving DecidableEq, Repr

/-- Lines 55-56 of `split.py`: the row-major iteration order of the double
loop `for i in range(h_tiles): for j in range(w_tiles):`. -/
def gridOrder (hT wT : ℕ) : List (ℕ × ℕ) :=
  (List.range hT).flatMap (fun i => (List.range wT).map (fun j => (i, j)))

/-- The double loop of lines 54-113, threading the `tile_number` counter
through `tileStep` over the row-major grid cells. -/
def runEventsGo (r : Raster) (tpx : ℤ) : List (ℕ × ℕ) → ℕ → List TileEvent
  | [], _ => []
  | (i, j) :: rest, n =>
    let win := tileWindow tpx r.width r.height i j
    let step := tileStep r.count (r.read win) n
    { index := n, window := win, written := step.2 } :: runEventsGo r tpx rest step.1

/-- Line 87 of `split.py`: the output file name of tile `n`. -/
def tile_filename (project_name : String) (n : ℕ) : String :=
  project_name ++ "_tile_" ++ toString n ++ ".png"

/-- The files written by a run: one per non-skipped tile event. -/
def writtenFiles (project_name : String) (events : List TileEvent) : List String :=
  events.filterMap (fun e => e.written.map (fun _ => tile_filename project_name e.index))

/-- The whole of `split_image` (lines 10-115 of `split.py`): input-existence
check, save-directory creation, resolution extraction and validation, grid
computation, and the tiling loop.  Returns the final filesystem state and
either a fatal error or the list of per-tile events. -/
def split_image (fs : FS) (r : Raster) (tile_width_meters : ℚ)
    (project_name : String) : FS × Except SplitError (List TileEvent) :=
  if fs.inputExists = false then
    (fs, Except.error SplitError.notFound)
  else
    let fs1 := if fs.saveDirExists then fs else { fs with saveDirExists := true }
    let pixel_width_meters := |r.a|
    let pixel_height_meters := |r.e|
    if pixel_width_meters = 0 ∨ pixel_height_meters = 0 then
      (fs1, Except.error SplitError.invalidResolution)
    else
      let tpx := tile_width_pixels tile_width_meters pixel_width_meters
      let wT := (w_tiles r.width tpx).toNat
      let hT := (h_tiles r.height tpx).toNat
      let events := runEventsGo r tpx (gridOrder hT wT) 0
      ({ fs1 with files := fs1.files ++ writtenFiles project_name events },
        Except.ok events)

/-! ### Arithmetic facts about the ceiling-style divisions -/

lemma w_tiles_eq_ediv (W : ℕ) {t : ℤ} (ht : 0 < t) :
    w_tiles W t = ((W : ℤ) + t - 1) / t :=
  Int.fdiv_eq_ediv _ ht.le

lemma h_tiles_eq_w_tiles (H : ℕ) (t : ℤ) : h_tiles H t = w_tiles H t := rfl

lemma w_tiles_nonneg (W : ℕ) {t : ℤ} (ht : 0 < t) : 0 ≤ w_tiles W t := by
  rw [w_tiles_eq_ediv W ht]
  exact Int.ediv_nonneg (by omega) ht.le

lemma le_w_tiles_mul (W : ℕ) {t : ℤ} (ht : 0 < t) :
    (W : ℤ) ≤ w_tiles W t * t := by
  rw [w_tiles_eq_ediv W ht]
  have h := Int.ediv_add_emod ((W : ℤ) + t - 1) t
  have hr : ((W : ℤ) + t - 1) % t + 1 ≤ t :=
    Int.lt_iff_add_one_le.mp (Int.emod_lt_of_pos _ ht)
  have hc : t * (((W : ℤ) + t - 1) / t) = (((W : ℤ) + t - 1) / t) * t :=
    mul_comm _ _
  linarith

lemma w_tiles_pred_mul_lt (W : ℕ) {t : ℤ} (ht : 0 < t) :
    (w_tiles W t - 1) * t < (W : ℤ) := by
  rw [w_tiles_eq_ediv W ht]
  have h := Int.ediv_add_emod ((W : ℤ) + t - 1) t
  have hr : 0 ≤ ((W : ℤ) + t - 1) % t := Int.emod_nonneg _ ht.ne'
  have hc : (((W : ℤ) + t - 1) / t - 1) * t = t * (((W : ℤ) + t - 1) / t) - t := by
    ring
  linarith

lemma w_tiles_eq_ceil (W : ℕ) {t : ℤ} (ht : 0 < t) :
    w_tiles W t = ⌈(W : ℚ) / (t : ℚ)⌉ := by
  have htQ : (0 : ℚ) < (t : ℚ) := by exact_mod_cast ht
  refine (Int.ceil_eq_iff.mpr ⟨?_, ?_⟩).symm
  · rw [lt_div_iff₀ htQ]
    have := w_tiles_pred_mul_lt W ht
    exact_mod_cast this
  · rw [div_le_iff₀ htQ]
    have := le_w_tiles_mul W ht
    exact_mod_cast this

lemma tile_width_pixels_pos {tw pw : ℚ} (htw : 0 < tw) (hpw : 0 < pw) :
    0 < tile_width_pixels tw pw :=
  Int.ceil_pos.mpr (div_pos htw hpw)

/-! ### Facts about a single tile window -/

lemma tileWindow_interior_width (W H : ℕ) {t : ℤ} (ht : 0 < t) {j : ℕ}
    (hj : (j : ℤ) + 1 < w_tiles W t) (i : ℕ) :
    (tileWindow t W H i j).width = t := by
  have h1 : ((j : ℤ) + 1) * t ≤ (w_tiles W t - 1) * t := by
    have : (j : ℤ) + 1 ≤ w_tiles W t - 1 := by omega
    exact mul_le_mul_of_nonneg_right this ht.le
  have h2 := w_tiles_pred_mul_lt W ht
  show min t ((W : ℤ) - (j : ℤ) * t) = t
  have : t ≤ (W : ℤ) - (j : ℤ) * t := by nlinarith
  exact min_eq_left this

lemma tileWindow_last_width (W H : ℕ) {t : ℤ} (ht : 0 < t) {j : ℕ}
    (hj : (j : ℤ) + 1 = w_tiles W t) (i : ℕ) :
    (tileWindow t W H i j).width = (W : ℤ) - (j : ℤ) * t ∧
      0 < (tileWindow t W H i j).width ∧ (tileWindow t W H i j).width ≤ t := by
  have h1 := le_w_tiles_mul W ht
  have h2 := w_tiles_pred_mul_lt W ht
  have hle : (W : ℤ) - (j : ℤ) * t ≤ t := by nlinarith [hj]
  have hpos : 0 < (W : ℤ) - (j : ℤ) * t := by nlinarith [hj]
  refine ⟨min_eq_right hle, ?_, min_le_left _ _⟩
  show 0 < min t ((W : ℤ) - (j : ℤ) * t)
  rw [min_eq_right hle]
  exact hpos

lemma tileWindow_in_bounds (W H : ℕ) {t : ℤ} (ht : 0 < t) (i j : ℕ) :
    0 ≤ (tileWindow t W H i j).x ∧
      (tileWindow t W H i j).x + (tileWindow t W H i j).width ≤ (W : ℤ) ∧
      0 ≤ (tileWindow t W H i j).y ∧
      (tileWindow t W H i j).y + (tileWindow t W H i j).height ≤ (H : ℤ) := by
  refine ⟨mul_nonneg (Int.natCast_nonneg j) ht.le, ?_,
    mul_nonneg (Int.natCast_nonneg i) ht.le, ?_⟩
  · have : (tileWindow t W H i j).width ≤ (W : ℤ) - (j : ℤ) * t := min_le_right _ _
    show (j : ℤ) * t + (tileWindow t W H i j).width ≤ (W : ℤ)
    omega
  · have : (tileWindow t W H i j).height ≤ (H : ℤ) - (i : ℤ) * t := min_le_right _ _
    show (i : ℤ) * t + (tileWindow t W H i j).height ≤ (H : ℤ)
    omega

/-! ### Facts about the tiling loop -/

lemma tileStep_fst (c : ℕ) (d : List (List ℤ)) (n : ℕ) :
    (tileStep c d n).1 = n + 1 := by
  unfold tileStep
  dsimp only
  split
  · split <;> rfl
  · split
    · split <;> rfl
    · rfl

lemma tileStep_unsupported {c : ℕ} (h3 : c ≠ 3) (h4 : c ≠ 4)
    (d : List (List ℤ)) (n : ℕ) : tileStep c d n = (n + 1, none) := by
  unfold tileStep
  rw [if_neg h4, if_neg h3]

lemma runEventsGo_length (r : Raster) (t : ℤ) :
    ∀ (ps : List (ℕ × ℕ)) (n : ℕ), (runEventsGo r t ps n).length = ps.length
  | [], _ => rfl
  | (i, j) :: rest, n => by
    simp only [runEventsGo, List.length_cons]
    rw [runEventsGo_length r t rest]

lemma runEventsGo_getElem (r : Raster) (t : ℤ) :
    ∀ (ps : List (ℕ × ℕ)) (n k i j : ℕ), ps[k]? = some (i, j) →
      (runEventsGo r t ps n)[k]? =
        some { index := n + k
               window := tileWindow t r.width r.height i j
               written := (tileStep r.count
                 (r.read (tileWindow t r.width r.height i j)) (n + k)).2 }
  | [], _, k, _, _, h => by simp at h
  | (a, b) :: rest, n, 0, i, j, h => by
    simp only [List.getElem?_cons_zero, Option.some_inj, Prod.mk.injEq] at h
    obtain ⟨h1, h2⟩ := h
    subst h1; subst h2
    simp [runEventsGo]
  | (a, b) :: rest, n, k + 1, i, j, h => by
    simp only [List.getElem?_cons_succ] at h
    simp only [runEventsGo, List.getElem?_cons_succ]
    rw [tileStep_fst, runEventsGo_getElem r t rest (n + 1) k i j h]
    have hnk : n + 1 + k = n + (k + 1) := by omega
    rw [hnk]

lemma runEventsGo_all_none {r : Raster} (t : ℤ)
    (h : ∀ (d : List (List ℤ)) (n : ℕ), (tileStep r.count d n).2 = none) :
    ∀ (ps : List (ℕ × ℕ)) (n : ℕ), ∀ e ∈ runEventsGo r t ps n, e.written = none
  | [], _, e, he => absurd he (List.not_mem_nil e)
  | (i, j) :: rest, n, e, he => by
    simp only [runEventsGo, List.mem_cons] at he
    rcases he with he | he
    · rw [he]; exact h _ _
    · exact runEventsGo_all_none t h rest _ e he

lemma gridOrder_zero (wT : ℕ) : gridOrder 0 wT = [] := rfl

lemma gridOrder_succ (hT wT : ℕ) :
    gridOrder (hT + 1) wT =
      gridOrder hT wT ++ (List.range wT).map (fun j => (hT, j)) := by
  unfold gridOrder
  rw [List.range_succ, List.flatMap_append]
  simp

lemma gridOrder_eq_map {wT : ℕ} (hwT : 0 < wT) :
    ∀ hT : ℕ, gridOrder hT wT =
      (List.range (hT * wT)).map (fun k => (k / wT, k % wT))
  | 0 => by simp [gridOrder_zero]
  | hT + 1 => by
    rw [gridOrder_succ, gridOrder_eq_map hwT hT, Nat.succ_mul, List.range_add,
      List.map_append, List.map_map]
    congr 1
    refine List.map_congr_left ?_
    intro j hj
    have hjw : j < wT := List.mem_range.mp hj
    have h1 : hT * wT + j = wT * hT + j := by ring
    have hdiv : (hT * wT + j) / wT = hT := by
      rw [h1, Nat.mul_add_div hwT, Nat.div_eq_of_lt hjw, Nat.add_zero]
    have hmod : (hT * wT + j) % wT = j := by
      rw [h1, Nat.mul_add_mod, Nat.mod_eq_of_lt hjw]
    simp [Function.comp, hdiv, hmod]

lemma gridOrder_length (hT wT : ℕ) : (gridOrder hT wT).length = hT * wT := by
  induction hT with
  | zero => simp [gridOrder_zero]
  | succ hT ih =>
    rw [gridOrder_succ, List.length_append, ih, List.length_map,
      List.length_range, Nat.succ_mul]

/-! ### The three outcomes of `split_image` -/

/-- The event list produced by a successful run of `split_image` on raster
`r` with tile size `tw`. -/
def okEvents (r : Raster) (tw : ℚ) : List TileEvent :=
  let tpx := tile_width_pixels tw |r.a|
  runEventsGo r tpx
    (gridOrder (h_tiles r.height tpx).toNat (w_tiles r.width tpx).toNat) 0

lemma split_image_notFound (fs : FS) (r : Raster) (tw : ℚ) (proj : String)
    (h1 : fs.inputExists = false) :
    split_image fs r tw proj = (fs, Except.error SplitError.notFound) := by
  unfold split_image
  rw [if_pos h1]

lemma fs_after_mkdir (fs : FS) :
    (if fs.saveDirExists then fs else { fs with saveDirExists := true }) =
      { fs with saveDirExists := true } := by
  obtain ⟨ie, sd, fl⟩ := fs
  cases sd <;> simp

lemma split_image_invalidRes (fs : FS) (r : Raster) (tw : ℚ) (proj : String)
    (h1 : fs.inputExists = true) (h2 : |r.a| = 0 ∨ |r.e| = 0) :
    split_image fs r tw proj =
      ({ fs with saveDirExists := true },
        Except.error SplitError.invalidResolution) := by
  unfold split_image
  rw [if_neg (by simp [h1]), fs_after_mkdir, if_pos h2]

lemma split_image_ok (fs : FS) (r : Raster) (tw : ℚ) (proj : String)
    (h1 : fs.inputExists = true) (h2 : ¬(|r.a| = 0 ∨ |r.e| = 0)) :
    split_image fs r tw proj =
      ({ fs with saveDirExists := true,
                 files := fs.files ++ writtenFiles proj (okEvents r tw) },
        Except.ok (okEvents r tw)) := by
  unfold split_image
  rw [if_neg (by simp [h1]), fs_after_mkdir, if_neg h2]
  rfl

lemma ok_of_split_image {fs : FS} {r : Raster} {tw : ℚ} {proj : String}
    {evs : List TileEvent} (h : (split_image fs r tw proj).2 = Except.ok evs) :
    evs = okEvents r tw := by
  by_cases h1 : fs.inputExists = false
  · rw [split_image_notFound fs r tw proj h1] at h
    exact absurd h (by simp)
  · have h1t : fs.inputExists = true := by
      cases hie : fs.inputExists
      · exact absurd hie h1
      · rfl
    by_cases h2 : |r.a| = 0 ∨ |r.e| = 0
    · rw [split_image_invalidRes fs r tw proj h1t h2] at h
      exact absurd h (by simp)
    · rw [split_image_ok fs r tw proj h1t h2] at h
      simp only [Except.ok.injEq] at h
      exact h.symm

lemma writtenFiles_eq_nil {proj : String} {evs : List TileEvent}
    (h : ∀ e ∈ evs, e.written = none) : writtenFiles proj evs = [] := by
  refine List.filterMap_eq_nil_iff.mpr ?_
  intro e he
  rw [h e he]
  rfl

/-! ### Concrete instances used in the examples and witnesses -/

/-- The spec's worked example: a 500x500-pixel raster at 0.5 units/pixel
(the vertical scale term is negative, as in a north-up GeoTIFF). -/
def exampleRaster : Raster :=
  { width := 500, height := 500, count := 4, a := 1/2, e := -(1/2)
    read := fun _ => [[0], [0], [0], [1]] }

/-- A filesystem on which `split_image` succeeds. -/
def exampleFS : FS := { inputExists := true, saveDirExists := true, files := [] }

/-- A tiny raster with band count `c` and unit resolution. -/
def unitRaster (c : ℕ) : Raster :=
  { width := 2, height := 1, count := c, a := 1, e := 1
    read := fun _ => [[1], [1], [1], [1]] }

/-- A raster whose horizontal scale term is zero (no valid georeferencing). -/
def zeroResRaster : Raster :=
  { width := 2, height := 2, count := 3, a := 0, e := 1
    read := fun _ => [[1], [1], [1]] }

lemma example_tpx : tile_width_pixels 100 |(1/2 : ℚ)| = 200 := by
  unfold tile_width_pixels
  rw [show |(1/2 : ℚ)| = 1/2 from abs_of_pos (by norm_num)]
  rw [show (100 : ℚ) / (1/2) = ((200 : ℤ) : ℚ) by norm_num]
  exact Int.ceil_intCast 200

lemma example_tpx_noabs : tile_width_pixels 100 (1/2 : ℚ) = 200 := by
  unfold tile_width_pixels
  rw [show (100 : ℚ) / (1/2) = ((200 : ℤ) : ℚ) by norm_num]
  exact Int.ceil_intCast 200

lemma example_okEvents :
    okEvents exampleRaster 100 = runEventsGo exampleRaster 200 (gridOrder 3 3) 0 := by
  unfold okEvents
  dsimp only
  have ha : exampleRaster.a = 1/2 := rfl
  rw [ha, example_tpx]
  have h1 : (w_tiles exampleRaster.width 200).toNat = 3 := by decide
  have h2 : (h_tiles exampleRaster.height 200).toNat = 3 := by decide
  rw [h1, h2]

lemma exampleRaster_res : ¬(|exampleRaster.a| = 0 ∨ |exampleRaster.e| = 0) := by
  intro h
  rcases h with h | h
  · rw [show exampleRaster.a = 1/2 from rfl] at h
    norm_num at h
  · rw [show exampleRaster.e = -(1/2) from rfl] at h
    norm_num at h

/-! ### The claims -/

/-- C1: for every raster with positive pixel width and every positive
physical tile size, the code computes `tile_px = ceil(tile_size /
pixel_width)` and `w_tiles` / `h_tiles` as ceiling divisions of the image
dimensions by `tile_px`; on the spec's worked example (500x500 pixels, 0.5
units/pixel, 100-unit tiles) this gives `tile_px = 200`, a 3x3 grid of 9
tiles, tile index 0 with window (0,0,200,200) and tile index 2 with window
(400,0,100,200). -/
theorem C1_grid_computation (W H : ℕ) (tw pw : ℚ) (htw : 0 < tw) (hpw : 0 < pw) :
    tile_width_pixels tw pw = ⌈tw / pw⌉ ∧
    w_tiles W (tile_width_pixels tw pw) =
      ⌈(W : ℚ) / ((tile_width_pixels tw pw : ℤ) : ℚ)⌉ ∧
    h_tiles H (tile_width_pixels tw pw) =
      ⌈(H : ℚ) / ((tile_width_pixels tw pw : ℤ) : ℚ)⌉ ∧
    tile_width_pixels 100 (1/2) = 200 ∧
    w_tiles 500 200 = 3 ∧ h_tiles 500 200 = 3 ∧
    (split_image exampleFS exampleRaster 100 "proj").2 =
      Except.ok (okEvents exampleRaster 100) ∧
    (okEvents exampleRaster 100).length = 9 ∧
    ((okEvents exampleRaster 100)[0]?).map TileEvent.index = some 0 ∧
    ((okEvents exampleRaster 100)[0]?).map TileEvent.window =
      some { x := 0, y := 0, width := 200, height := 200 } ∧
    ((okEvents exampleRaster 100)[2]?).map TileEvent.index = some 2 ∧
    ((okEvents exampleRaster 100)[2]?).map TileEvent.window =
      some { x := 400, y := 0, width := 100, height := 200 } := by
  have ht : 0 < tile_width_pixels tw pw := tile_width_pixels_pos htw hpw
  refine ⟨rfl, w_tiles_eq_ceil W ht, w_tiles_eq_ceil H ht, example_tpx_noabs,
    by decide, by decide, ?_, ?_, ?_, ?_, ?_, ?_⟩
  · rw [split_image_ok exampleFS exampleRaster 100 "proj" rfl exampleRaster_res]
  · rw [example_okEvents]; decide
  · rw [example_okEvents]; decide
  · rw [example_okEvents]; decide
  · rw [example_okEvents]; decide
  · rw [example_okEvents]; decide

/-- Witness for C1 at the spec's example inputs. -/
theorem C1_grid_computation_witness :
    tile_width_pixels 100 (1/2) = ⌈(100 : ℚ) / (1/2)⌉ :=
  (C1_grid_computation 500 500 100 (1/2) (by norm_num) (by norm_num)).1

/-- C2: on a 4-band tile, if every alpha value (channel 3 of the source
read) is zero the tile is skipped (`none`) and the index still increments;
otherwise a 4-channel image is written whose channels 0 and 2 are swapped
relative to the source order, channels 1 and 3 unchanged, so the alpha
channel is preserved exactly and no background fill is applied. -/
theorem C2_four_band_policy (b0 b1 b2 b3 : List ℤ) (n : ℕ) :
    (b3.all (fun v => v = 0) = true →
      tileStep 4 [b0, b1, b2, b3] n = (n + 1, none)) ∧
    (b3.all (fun v => v = 0) = false →
      tileStep 4 [b0, b1, b2, b3] n = (n + 1, some [b2, b1, b0, b3])) := by
  constructor
  · intro h
    simp [tileStep, h]
  · intro h
    simp [tileStep, h]

/-- Witness for C2: an all-transparent tile is skipped, a tile with a
non-zero alpha sample is written with channels 0 and 2 swapped. -/
theorem C2_four_band_policy_witness :
    tileStep 4 [[5], [6], [7], [0]] 0 = (1, none) ∧
    tileStep 4 [[5], [6], [7], [9]] 3 = (4, some [[7], [6], [5], [9]]) :=
  ⟨(C2_four_band_policy [5] [6] [7] [0] 0).1 (by decide),
    (C2_four_band_policy [5] [6] [7] [9] 3).2 (by decide)⟩

/-- C3: on a 3-band tile, if every sample is zero the tile is skipped (no
write, index still increments); otherwise a 3-channel image is written with
the channel order exactly the source read order (no swap, unlike the 4-band
case). -/
theorem C3_three_band_policy (b0 b1 b2 : List ℤ) (n : ℕ) :
    ([b0, b1, b2].all (fun band => band.all (fun v => v = 0)) = true →
      tileStep 3 [b0, b1, b2] n = (n + 1, none)) ∧
    ([b0, b1, b2].all (fun band => band.all (fun v => v = 0)) = false →
      tileStep 3 [b0, b1, b2] n = (n + 1, some [b0, b1, b2])) := by
  constructor
  · intro h
    unfold tileStep
    dsimp only
    rw [if_neg (by decide), if_pos rfl, if_pos h]
  · intro h
    unfold tileStep
    dsimp only
    rw [if_neg (by decide), if_pos rfl, if_neg (by simp [h])]

/-- Witness for C3: an all-zero tile is skipped, a non-zero tile is written
unswapped. -/
theorem C3_three_band_policy_witness :
    tileStep 3 [[0], [0], [0]] 0 = (1, none) ∧
    tileStep 3 [[5], [6], [7]] 2 = (3, some [[5], [6], [7]]) :=
  ⟨(C3_three_band_policy [0] [0] [0] 0).1 (by decide),
    (C3_three_band_policy [5] [6] [7] 2).2 (by decide)⟩

/-- C4: a successful run produces exactly `h_tiles * w_tiles` tile events,
the tile index increments exactly once per visited tile (event `k` carries
index `k`), and the visit order is row-major: event `k` is the window of
grid cell (row `k / w_tiles`, column `k % w_tiles`). -/
theorem C4_row_major_indexing (fs : FS) (r : Raster) (tw : ℚ) (proj : String)
    (evs : List TileEvent)
    (h : (split_image fs r tw proj).2 = Except.ok evs) :
    evs.length =
      (h_tiles r.height (tile_width_pixels tw |r.a|)).toNat *
        (w_tiles r.width (tile_width_pixels tw |r.a|)).toNat ∧
    (∀ k, k < evs.length → (evs[k]?).map TileEvent.index = some k) ∧
    (0 < (w_tiles r.width (tile_width_pixels tw |r.a|)).toNat →
      ∀ k, k < evs.length →
        (evs[k]?).map TileEvent.window =
          some (tileWindow (tile_width_pixels tw |r.a|) r.width r.height
            (k / (w_tiles r.width (tile_width_pixels tw |r.a|)).toNat)
            (k % (w_tiles r.width (tile_width_pixels tw |r.a|)).toNat))) := by
  have hevs : evs = okEvents r tw := ok_of_split_image h
  subst hevs
  set tpx := tile_width_pixels tw |r.a| with htpx
  set wT := (w_tiles r.width tpx).toNat with hwTdef
  set hT := (h_tiles r.height tpx).toNat with hhTdef
  have hok : okEvents r tw = runEventsGo r tpx (gridOrder hT wT) 0 := rfl
  have hlen : (okEvents r tw).length = hT * wT := by
    rw [hok, runEventsGo_length, gridOrder_length]
  refine ⟨hlen, ?_, ?_⟩
  · intro k hk
    have hkg : k < (gridOrder hT wT).length := by
      rw [gridOrder_length]
      rw [hlen] at hk
      exact hk
    obtain ⟨⟨i, j⟩, hij⟩ : ∃ p, (gridOrder hT wT)[k]? = some p :=
      ⟨(gridOrder hT wT).get ⟨k, hkg⟩, List.getElem?_eq_getElem hkg⟩
    rw [hok, runEventsGo_getElem r tpx _ 0 k i j hij]
    simp
  · intro hwT k hk
    have hkg : k < hT * wT := by
      rw [hlen] at hk
      exact hk
    have hmap := gridOrder_eq_map hwT hT
    have hij : (gridOrder hT wT)[k]? = some (k / wT, k % wT) := by
      rw [hmap, List.getElem?_map, List.getElem?_range hkg]
      rfl
    rw [hok, runEventsGo_getElem r tpx _ 0 k (k / wT) (k % wT) hij]
    simp

/-- Witness for C4 on a concrete 2x1 raster with unit resolution and
tile size 1: the run succeeds and its event count is the grid size. -/
theorem C4_row_major_indexing_witness :
    (okEvents (unitRaster 4) 1).length =
      (h_tiles (unitRaster 4).height (tile_width_pixels 1 |(unitRaster 4).a|)).toNat *
        (w_tiles (unitRaster 4).width (tile_width_pixels 1 |(unitRaster 4).a|)).toNat :=
  (C4_row_major_indexing ⟨true, true, []⟩ (unitRaster 4) 1 "p"
    (okEvents (unitRaster 4) 1)
    (by rw [split_image_ok ⟨true, true, []⟩ (unitRaster 4) 1 "p" rfl (by decide)])).1

/-- C5: every interior tile window (not in the last column or row) is
exactly `tile_px` wide and high; a window in the last column (resp. row)
has width (resp. height) strictly positive, at most `tile_px`, and equal to
the image dimension minus `tile_px` times the number of tiles before it on
that axis; all windows lie within the image bounds. -/
theorem C5_window_geometry (W H : ℕ) {t : ℤ} (ht : 0 < t) (i j : ℕ)
    (_hj : (j : ℤ) < w_tiles W t) (_hi : (i : ℤ) < h_tiles H t) :
    (((j : ℤ) + 1 < w_tiles W t) → (tileWindow t W H i j).width = t) ∧
    (((i : ℤ) + 1 < h_tiles H t) → (tileWindow t W H i j).height = t) ∧
    (((j : ℤ) + 1 = w_tiles W t) →
      0 < (tileWindow t W H i j).width ∧ (tileWindow t W H i j).width ≤ t ∧
        (tileWindow t W H i j).width = (W : ℤ) - t * (j : ℤ)) ∧
    (((i : ℤ) + 1 = h_tiles H t) →
      0 < (tileWindow t W H i j).height ∧ (tileWindow t W H i j).height ≤ t ∧
        (tileWindow t W H i j).height = (H : ℤ) - t * (i : ℤ)) ∧
    (0 ≤ (tileWindow t W H i j).x ∧
      (tileWindow t W H i j).x + (tileWindow t W H i j).width ≤ (W : ℤ) ∧
      0 ≤ (tileWindow t W H i j).y ∧
      (tileWindow t W H i j).y + (tileWindow t W H i j).height ≤ (H : ℤ)) := by
  refine ⟨?_, ?_, ?_, ?_, tileWindow_in_bounds W H ht i j⟩
  · intro hj1
    exact tileWindow_interior_width W H ht hj1 i
  · intro hi1
    rw [h_tiles_eq_w_tiles] at hi1
    exact tileWindow_interior_width H W ht hi1 j
  · intro hj1
    obtain ⟨he, hp, hle⟩ := tileWindow_last_width W H ht hj1 i
    refine ⟨hp, hle, ?_⟩
    rw [he, mul_comm]
  · intro hi1
    rw [h_tiles_eq_w_tiles] at hi1
    obtain ⟨he, hp, hle⟩ := tileWindow_last_width H W ht hi1 j
    refine ⟨hp, hle, ?_⟩
    rw [show (tileWindow t W H i j).height = (tileWindow t H W j i).width from rfl,
      he, mul_comm]

/-- Witness for C5 on the spec's example grid: the interior tile (0,0) of
the 500x500 image with `tile_px = 200` is 200 pixels wide. -/
theorem C5_window_geometry_witness : (tileWindow 200 500 500 0 0).width = 200 :=
  (C5_window_geometry 500 500 (by decide) 0 0 (by decide) (by decide)).1 (by decide)

/-- C6: with the input file present, if the absolute horizontal or vertical
scale term of the transform is zero the run aborts with the resolution
error before any tile is processed and writes no file; if both are non-zero
the run succeeds, so no resolution error is raised. -/
theorem C6_resolution_validation (fs : FS) (r : Raster) (tw : ℚ) (proj : String)
    (h1 : fs.inputExists = true) :
    ((|r.a| = 0 ∨ |r.e| = 0) →
      (split_image fs r tw proj).2 = Except.error SplitError.invalidResolution ∧
      (split_image fs r tw proj).1.files = fs.files) ∧
    (¬(|r.a| = 0 ∨ |r.e| = 0) →
      (split_image fs r tw proj).2 = Except.ok (okEvents r tw)) := by
  constructor
  · intro h2
    rw [split_image_invalidRes fs r tw proj h1 h2]
    exact ⟨rfl, rfl⟩
  · intro h2
    rw [split_image_ok fs r tw proj h1 h2]

/-- Witness for C6: a raster with zero horizontal resolution aborts with the
resolution error and leaves the file list empty. -/
theorem C6_resolution_validation_witness :
    (split_image ⟨true, false, []⟩ zeroResRaster 1 "p").2 =
      Except.error SplitError.invalidResolution ∧
    (split_image ⟨true, false, []⟩ zeroResRaster 1 "p").1.files = [] :=
  (C6_resolution_validation ⟨true, false, []⟩ zeroResRaster 1 "p" rfl).1
    (Or.inl (by decide))

/-- C7: the run fails with the not-found error exactly when the source path
does not name an existing file, and in that case the outcome is the same
for every raster, tile size and project name — nothing of the raster is
consulted, so the failure precedes any I/O on it. -/
theorem C7_not_found (fs : FS) (r : Raster) (tw : ℚ) (proj : String) :
    (fs.inputExists = false ↔
      (split_image fs r tw proj).2 = Except.error SplitError.notFound) ∧
    (fs.inputExists = false →
      ∀ (r2 : Raster) (tw2 : ℚ) (proj2 : String),
        split_image fs r2 tw2 proj2 = (fs, Except.error SplitError.notFound)) := by
  constructor
  · constructor
    · intro h1
      rw [split_image_notFound fs r tw proj h1]
    · intro h
      by_contra h1
      have h1t : fs.inputExists = true := by
        cases hie : fs.inputExists
        · exact absurd hie h1
        · rfl
      by_cases h2 : |r.a| = 0 ∨ |r.e| = 0
      · rw [split_image_invalidRes fs r tw proj h1t h2] at h
        exact absurd h (by simp)
      · rw [split_image_ok fs r tw proj h1t h2] at h
        exact absurd h (by simp)
  · intro h1 r2 tw2 proj2
    exact split_image_notFound fs r2 tw2 proj2 h1

/-- Witness for C7: a missing input file yields the not-found error. -/
theorem C7_not_found_witness :
    (split_image ⟨false, true, []⟩ (unitRaster 3) 1 "p").2 =
      Except.error SplitError.notFound :=
  (C7_not_found ⟨false, true, []⟩ (unitRaster 3) 1 "p").1.mp rfl

/-- C8: when the band count is neither 3 nor 4, a (otherwise valid) run
completes without raising: it returns the full grid of events, every tile
is skipped (nothing written), and the file list is unchanged. -/
theorem C8_unsupported_bands (fs : FS) (r : Raster) (tw : ℚ) (proj : String)
    (h1 : fs.inputExists = true) (h2 : ¬(|r.a| = 0 ∨ |r.e| = 0))
    (h3 : r.count ≠ 3) (h4 : r.count ≠ 4) :
    (split_image fs r tw proj).2 = Except.ok (okEvents r tw) ∧
    (∀ e ∈ okEvents r tw, e.written = none) ∧
    (okEvents r tw).length =
      (h_tiles r.height (tile_width_pixels tw |r.a|)).toNat *
        (w_tiles r.width (tile_width_pixels tw |r.a|)).toNat ∧
    (split_image fs r tw proj).1.files = fs.files := by
  have hnone : ∀ (d : List (List ℤ)) (n : ℕ), (tileStep r.count d n).2 = none := by
    intro d n
    rw [tileStep_unsupported h3 h4]
  have hall : ∀ e ∈ okEvents r tw, e.written = none := by
    intro e he
    exact runEventsGo_all_none _ hnone _ _ e he
  refine ⟨?_, hall, ?_, ?_⟩
  · rw [split_image_ok fs r tw proj h1 h2]
  · show (runEventsGo r _ (gridOrder _ _) 0).length = _
    rw [runEventsGo_length, gridOrder_length]
  · rw [split_image_ok fs r tw proj h1 h2]
    show fs.files ++ writtenFiles proj (okEvents r tw) = fs.files
    rw [writtenFiles_eq_nil hall, List.append_nil]

/-- Witness for C8: a 5-band raster run succeeds and writes nothing. -/
theorem C8_unsupported_bands_witness :
    (split_image ⟨true, true, []⟩ (unitRaster 5) 1 "p").2 =
      Except.ok (okEvents (unitRaster 5) 1) ∧
    (split_image ⟨true, true, []⟩ (unitRaster 5) 1 "p").1.files = [] := by
  have h := C8_unsupported_bands ⟨true, true, []⟩ (unitRaster 5) 1 "p"
    rfl (by decide) (by decide) (by decide)
  exact ⟨h.1, h.2.2.2⟩

/-- C9: for every positive tile physical size and positive pixel
resolution — including a tile size smaller than one pixel — the computed
`tile_px` is at least 1 and in particular non-zero, so the ceiling
divisions computing `w_tiles` and `h_tiles` never divide by zero. -/
theorem C9_tile_px_positive (tw pw : ℚ) (htw : 0 < tw) (hpw : 0 < pw) :
    1 ≤ tile_width_pixels tw pw ∧ tile_width_pixels tw pw ≠ 0 := by
  have h := tile_width_pixels_pos htw hpw
  exact ⟨h, h.ne'⟩

/-- Witness for C9 with a tile size smaller than one pixel's physical
resolution. -/
theorem C9_tile_px_positive_witness : 1 ≤ tile_width_pixels (1/3) 2 :=
  (C9_tile_px_positive (1/3) 2 (by norm_num) (by norm_num)).1

/-- C10: when the input file is missing the filesystem is left untouched —
in particular the save directory is not created even if absent — whereas
the zero-resolution failure occurs after the directory-creation step, so
there the directory is created (but still no file is written). -/
theorem C10_missing_input_no_side_effect (fs : FS) (r : Raster) (tw : ℚ)
    (proj : String) :
    (fs.inputExists = false → (split_image fs r tw proj).1 = fs) ∧
    (fs.inputExists = true → fs.saveDirExists = false →
      (|r.a| = 0 ∨ |r.e| = 0) →
      (split_image fs r tw proj).1.saveDirExists = true ∧
      (split_image fs r tw proj).1.files = fs.files) := by
  constructor
  · intro h1
    rw [split_image_notFound fs r tw proj h1]
  · intro h1 _ h2
    rw [split_image_invalidRes fs r tw proj h1 h2]
    exact ⟨rfl, rfl⟩

/-- Witness for C10: missing input with an absent save directory leaves the
filesystem unchanged. -/
theorem C10_missing_input_no_side_effect_witness :
    (split_image ⟨false, false, []⟩ (unitRaster 3) 1 "p").1 = ⟨false, false, []⟩ :=
  (C10_missing_input_no_side_effect ⟨false, false, []⟩ (unitRaster 3) 1 "p").1 rfl
